import Mathlib

/-!
Verification development for `src/elan/command.rs` of the elan repository.

The file embeds, as executable Lean definitions, the four components of that
source file:

* the command dispatcher `run_command_for_dir` (lines 15-26);
* the telemetry-capturing executor `telemetry_lean` (lines 28-150);
* the direct executor `exec_command_for_dir_without_telemetry` (lines 152-178),
  with its unix (in-place `exec`) and windows (spawn-and-exit) variants;
* the terminal probe `stderr_isatty` (lines 180-200), unix and windows variants.

Modelling conventions:

* The captured diagnostic stream (the temporary file the child's stderr is
  redirected into) is a list of bytes (`List Nat`, values < 256).
* `BufRead::read_line` splits the byte stream into chunks each ending with the
  byte 10 (the final chunk possibly without it), and validates each chunk as
  UTF-8; `utf8Decode` embeds Rust's `str::from_utf8` (rejecting overlong forms,
  surrogates and code points above 0x10FFFF).  The `.unwrap()` on `read_line`
  means an invalid chunk is a panic, which the model records explicitly.
* The regex `\[(?P<error>E.{4})\]` of line 84 is embedded at the character
  level by `tokChk`/`matchAt`/`firstMatch`: a match is a literal `[`, then `E`,
  then exactly four characters none of which is a newline, then a literal `]`;
  `Regex::captures` returns the leftmost match of a line.
* Environment interactions that the source unwraps or ignores are explicit
  model inputs: spawn success (`spawn().unwrap()`, line 70), the `wait` result,
  the log-store append result, and the wall-clock duration.  `tempfile()` and
  the rewinding `seek` (lines 60 and 94) are modelled as succeeding, and the
  `handle.write` of line 101 as appending the whole buffer to the real stderr.
* `process::exit`, returning `Err`, and panicking are the distinct terminal
  outcomes of the `Outcome` type.
-/

/-! ## Bytes and UTF-8 validation (Rust `str::from_utf8` semantics) -/

/-- Decode a byte list as UTF-8, as Rust's `str::from_utf8` does: continuation
bytes are `0x80-0xBF`, overlong encodings, surrogates (`0xD800-0xDFFF`) and
code points above `0x10FFFF` are rejected.  Returns `none` on invalid input,
which models `read_line` returning `Err(InvalidData)`. -/
def utf8Decode : List Nat → Option (List Char)
  | [] => some []
  | b0 :: rest =>
    if b0 < 0x80 then
      (utf8Decode rest).map (fun cs => Char.ofNat b0 :: cs)
    else if b0 < 0xC2 then none
    else if b0 < 0xE0 then
      match rest with
      | b1 :: rest1 =>
        if 0x80 ≤ b1 ∧ b1 < 0xC0 then
          (utf8Decode rest1).map (fun cs => Char.ofNat ((b0 - 0xC0) * 0x40 + (b1 - 0x80)) :: cs)
        else none
      | [] => none
    else if b0 < 0xF0 then
      match rest with
      | b1 :: b2 :: rest2 =>
        if ((b0 = 0xE0 ∧ 0xA0 ≤ b1 ∧ b1 < 0xC0) ∨
            (0xE1 ≤ b0 ∧ b0 ≤ 0xEC ∧ 0x80 ≤ b1 ∧ b1 < 0xC0) ∨
            (b0 = 0xED ∧ 0x80 ≤ b1 ∧ b1 < 0xA0) ∨
            (0xEE ≤ b0 ∧ 0x80 ≤ b1 ∧ b1 < 0xC0)) ∧
           (0x80 ≤ b2 ∧ b2 < 0xC0) then
          (utf8Decode rest2).map (fun cs =>
            Char.ofNat ((b0 - 0xE0) * 0x1000 + (b1 - 0x80) * 0x40 + (b2 - 0x80)) :: cs)
        else none
      | _ => none
    else if b0 < 0xF5 then
      match rest with
      | b1 :: b2 :: b3 :: rest3 =>
        if ((b0 = 0xF0 ∧ 0x90 ≤ b1 ∧ b1 < 0xC0) ∨
            (0xF1 ≤ b0 ∧ b0 ≤ 0xF3 ∧ 0x80 ≤ b1 ∧ b1 < 0xC0) ∨
            (b0 = 0xF4 ∧ 0x80 ≤ b1 ∧ b1 < 0x90)) ∧
           (0x80 ≤ b2 ∧ b2 < 0xC0) ∧ (0x80 ≤ b3 ∧ b3 < 0xC0) then
          (utf8Decode rest3).map (fun cs =>
            Char.ofNat ((b0 - 0xF0) * 0x40000 + (b1 - 0x80) * 0x1000 +
                        (b2 - 0x80) * 0x40 + (b3 - 0x80)) :: cs)
        else none
      | _ => none
    else none

/-! ## Splitting a stream into lines, as repeated `read_line` calls do

`read_line` reads bytes up to and including the first newline (or up to end of
input), so the loop of lines 98-113 of the source processes the stream as the
list of its newline-terminated chunks, the last chunk possibly unterminated. -/

/-- The byte lines of a byte stream: each chunk ends with byte 10 except
possibly the last; their concatenation is the original stream. -/
def splitLinesB : List Nat → List (List Nat)
  | [] => []
  | b :: t =>
    if b = 10 then [10] :: splitLinesB t
    else
      match splitLinesB t with
      | [] => [[b]]
      | l :: ls => (b :: l) :: ls

/-- The character lines of a text stream, same convention as `splitLinesB`. -/
def splitLines : List Char → List (List Char)
  | [] => []
  | c :: t =>
    if c = '\n' then ['\n'] :: splitLines t
    else
      match splitLines t with
      | [] => [[c]]
      | l :: ls => (c :: l) :: ls

/-- The first line of a text stream, up to and including the first newline. -/
def takeLine : List Char → List Char
  | [] => []
  | c :: t => if c = '\n' then ['\n'] else c :: takeLine t

/-- What remains of a text stream after its first line. -/
def dropLine : List Char → List Char
  | [] => []
  | c :: t => if c = '\n' then t else dropLine t

/-! ## The error-code pattern `\[(?P<error>E.{4})\]` (source line 84) -/

/-- Does a window of characters begin with the pattern: `[`, `E`, four
characters none of which is a newline (Rust's `.` does not match `\n`), `]`?
If so, return the captured `error` group: the `E` and the four characters. -/
def tokChk (w : List Char) : Option (List Char) :=
  match w with
  | [c0, c1, c2, c3, c4, c5, c6] =>
    if c0 = '[' ∧ c1 = 'E' ∧ c6 = ']' ∧ c2 ≠ '\n' ∧ c3 ≠ '\n' ∧ c4 ≠ '\n' ∧ c5 ≠ '\n' then
      some [c1, c2, c3, c4, c5]
    else none
  | _ => none

/-- Pattern match at the start of `l` (the pattern has fixed length 7). -/
def matchAt (l : List Char) : Option (List Char) := tokChk (l.take 7)

/-- The leftmost match of the pattern in `l`, as `Regex::captures` returns it:
the first starting position at which the pattern matches. -/
def firstMatch : List Char → Option (List Char)
  | [] => none
  | c :: t =>
    match matchAt (c :: t) with
    | some m => some m
    | none => firstMatch t

/-- The error codes accumulated by the loop of source lines 98-113, at the text
level: for each line in order, `re.captures` pushes the first match of that
line, if any. -/
def scanErrors (s : List Char) : List (List Char) :=
  (splitLines s).filterMap firstMatch

/-- Fuel-driven scan collecting every (non-overlapping, leftmost) match of the
pattern anywhere in a text, ignoring line structure.  This is the
specification-side notion "all bracketed 5-character E-prefixed tokens
occurring anywhere in the stream, in first-occurrence order". -/
def allTokAux : Nat → List Char → List (List Char)
  | 0, _ => []
  | _ + 1, [] => []
  | fuel + 1, c :: t =>
    match matchAt (c :: t) with
    | some m => m :: allTokAux fuel ((c :: t).drop 7)
    | none => allTokAux fuel t

/-- All bracketed 5-character E-prefixed tokens occurring anywhere in a text,
in first-occurrence order, duplicates included. -/
def allErrorTokens (s : List Char) : List (List Char) := allTokAux s.length s

/-! ## The relay-and-scan loop over the captured byte stream (lines 94-113) -/

/-- Result of the relay-and-scan loop: the bytes written to the parent's real
stderr, the accumulated error codes, and whether the loop panicked (the
`.unwrap()` on `read_line`, line 98, fires on a line that is not valid
UTF-8). -/
structure RelayResult where
  written : List Nat
  errors : List (List Char)
  panicked : Bool
deriving DecidableEq, Repr

/-- Process the byte lines in order: each line is UTF-8-decoded by `read_line`
(panic on failure), its bytes are written to the real stderr, and its first
pattern match, if any, is appended to the error accumulator. -/
def relayLines : List (List Nat) → RelayResult
  | [] => ⟨[], [], false⟩
  | line :: rest =>
    match utf8Decode line with
    | none => ⟨[], [], true⟩
    | some cs =>
      let r := relayLines rest
      ⟨line ++ r.written,
       (match firstMatch cs with
        | some m => m :: r.errors
        | none => r.errors),
       r.panicked⟩

/-- The loop of source lines 94-113 applied to a captured byte stream. -/
def relayScanB (stream : List Nat) : RelayResult :=
  relayLines (splitLinesB stream)

/-! ## The telemetry event model and ambient collaborators -/

/-- The `TelemetryEvent::LeanRun` variant (duration, exit code, optional
non-empty error list). -/
structure LeanRunEvent where
  duration_ms : Nat
  exit_code : Int
  errors : Option (List (List Char))
deriving DecidableEq, Repr

/-- The event construction of source lines 115-125: an empty accumulator gives
`errors: None`, a non-empty one gives `Some` of it. -/
def mkLeanRun (ms : Nat) (code : Int) (errs : List (List Char)) : LeanRunEvent :=
  { duration_ms := ms, exit_code := code, errors := if errs = [] then none else some errs }

/-- Notifications sent through `cfg.notify_handler`. -/
inductive Notification
  | telemetryCleanupError
deriving DecidableEq, Repr

/-- Terminal outcome of one invocation of this component: the process exits
with a code (`process::exit`, or the exec-replaced child image exiting), an
error is returned to the caller, the process panics, or (unix direct path) the
exec-replaced child is killed by a signal. -/
inductive Outcome
  | exited (code : Int)
  | errRunningCommand (name : String)
  | errCfg
  | panicked
  | signaled
deriving DecidableEq, Repr

/-- Equality of `Except` results is decidable when it is on both sides. -/
instance instDecidableEqExcept {ε α : Type} [DecidableEq ε] [DecidableEq α] :
    DecidableEq (Except ε α) := fun x y =>
  match x, y with
  | Except.ok a, Except.ok b =>
    if h : a = b then isTrue (by rw [h]) else isFalse (by intro hh; cases hh; exact h rfl)
  | Except.error a, Except.error b =>
    if h : a = b then isTrue (by rw [h]) else isFalse (by intro hh; cases hh; exact h rfl)
  | Except.ok _, Except.error _ => isFalse (by intro hh; cases hh)
  | Except.error _, Except.ok _ => isFalse (by intro hh; cases hh)

/-- Environment of one telemetry-path invocation: the `stderr_isatty()` result,
whether `spawn` succeeded (line 69), the `wait` result (line 72: on success the
child's `status.code()`, on failure the error's `raw_os_error()`), the bytes the
child wrote to the captured stream, and whether `log_telemetry` succeeded. -/
structure TelemetryEnv where
  isatty : Bool
  spawnOk : Bool
  wait : Except (Option Int) (Option Int)
  stream : List Nat
  logOk : Bool
deriving DecidableEq, Repr

/-- What one executor invocation did: the argument list handed to the child,
the telemetry events handed to the log store, the notifications emitted, the
bytes relayed to the real stderr, and the terminal outcome. -/
structure ExecResult where
  childArgs : List (List Char)
  events : List LeanRunEvent
  notifications : List Notification
  relayed : List Nat
  outcome : Outcome
deriving DecidableEq, Repr

/-- The color-option prefix of source line 52 (`--color`). -/
def colorFlag : List Char := ['-', '-', 'c', 'o', 'l', 'o', 'r']

/-- The second injected argument of source line 57 (`always`). -/
def alwaysFlag : List Char := ['a', 'l', 'w', 'a', 'y', 's']

/-- The telemetry-capturing executor, source lines 28-150.  Arguments are
modelled as character lists (the data model's string arguments). -/
def telemetry_lean (arg0 : String) (args : List (List Char)) (env : TelemetryEnv)
    (ms : Nat) : ExecResult :=
  let has_color_args := args.any (fun e => colorFlag.isPrefixOf e)
  let childArgs :=
    if env.isatty && !has_color_args then args ++ [colorFlag, alwaysFlag] else args
  if env.spawnOk then
    match env.wait with
    | Except.ok statusCode =>
      let exit_code : Int := statusCode.getD 1
      let r := relayScanB env.stream
      if r.panicked then
        { childArgs := childArgs, events := [], notifications := [],
          relayed := r.written, outcome := Outcome.panicked }
      else
        { childArgs := childArgs,
          events := [mkLeanRun ms exit_code r.errors],
          notifications := if env.logOk then [] else [Notification.telemetryCleanupError],
          relayed := r.written,
          outcome := Outcome.exited exit_code }
    | Except.error rawOs =>
      let exit_code : Int := rawOs.getD 1
      { childArgs := childArgs,
        events := [{ duration_ms := ms, exit_code := exit_code, errors := none }],
        notifications := if env.logOk then [] else [Notification.telemetryCleanupError],
        relayed := [],
        outcome := Outcome.errRunningCommand arg0 }
  else
    { childArgs := childArgs, events := [], notifications := [], relayed := [],
      outcome := Outcome.panicked }

/-- The two operating-system families of the source's `#[cfg(...)]` items. -/
inductive Platform
  | unix
  | windows
deriving DecidableEq, Repr

/-- Environment of one direct-path invocation: on unix whether `cmd.exec()`
returned (an error), and, when the process image was replaced, the child's own
eventual termination code (`none` = killed by a signal); on windows the
`cmd.status()` result. -/
structure DirectEnv where
  execErr : Option Unit
  childExit : Option Int
  winStatus : Except Unit (Option Int)
deriving DecidableEq, Repr

/-- The direct executor, source lines 152-178.  On unix, `exec` replaces the
process image, so a successful replacement makes the process's final exit the
child's own; a returned error is wrapped as a `RunningCommand` error.  On
windows, the child is spawned and waited on, and the parent exits with
`status.code().unwrap()` - a panic if the code is unavailable. -/
def exec_command_for_dir_without_telemetry (platform : Platform) (arg0 : String)
    (args : List (List Char)) (env : DirectEnv) : ExecResult :=
  { childArgs := args,
    events := [],
    notifications := [],
    relayed := [],
    outcome :=
      match platform with
      | Platform.unix =>
        match env.execErr with
        | some _ => Outcome.errRunningCommand arg0
        | none =>
          match env.childExit with
          | some c => Outcome.exited c
          | none => Outcome.signaled
      | Platform.windows =>
        match env.winStatus with
        | Except.error _ => Outcome.errRunningCommand arg0
        | Except.ok (some c) => Outcome.exited c
        | Except.ok none => Outcome.panicked }

/-- Which execution path the dispatcher chose. -/
inductive PathTaken
  | telemetryPath
  | directPath
  | noPath
deriving DecidableEq, Repr

/-- The ambient configuration interface used by the dispatcher:
`cfg.telemetry_enabled()` is fallible. -/
structure Cfg where
  telemetry_enabled : Except Unit Bool
deriving DecidableEq, Repr

/-- Result of the dispatcher: the path chosen and what the chosen path did. -/
structure RunResult where
  pathTaken : PathTaken
  exec : ExecResult
deriving DecidableEq, Repr

/-- The command dispatcher, source lines 15-26: the telemetry path runs exactly
when the executable name is `lean` or `lean.exe` and the (short-circuited)
telemetry-enablement query answers `true`; a query error is propagated by `?`
without attempting either path. -/
def run_command_for_dir (platform : Platform) (arg0 : String) (args : List (List Char))
    (cfg : Cfg) (tEnv : TelemetryEnv) (dEnv : DirectEnv) (ms : Nat) : RunResult :=
  if arg0 = "lean" ∨ arg0 = "lean.exe" then
    match cfg.telemetry_enabled with
    | Except.error _ =>
      { pathTaken := PathTaken.noPath,
        exec := { childArgs := args, events := [], notifications := [], relayed := [],
                  outcome := Outcome.errCfg } }
    | Except.ok true =>
      { pathTaken := PathTaken.telemetryPath, exec := telemetry_lean arg0 args tEnv ms }
    | Except.ok false =>
      { pathTaken := PathTaken.directPath,
        exec := exec_command_for_dir_without_telemetry platform arg0 args dEnv }
  else
    { pathTaken := PathTaken.directPath,
      exec := exec_command_for_dir_without_telemetry platform arg0 args dEnv }

/-- The unix terminal probe, source lines 180-183: the raw `libc::isatty`
return value is compared with zero. -/
def stderr_isatty_unix (isatty_ret : Int) : Bool := isatty_ret != 0

/-- The windows terminal probe, source lines 185-200: the raw `GetConsoleMode`
return value is compared with zero. -/
def stderr_isatty_windows (console_mode_ret : Int) : Bool := console_mode_ret != 0

/-! ## Byte-level facts about the relay loop -/

/-- Splitting a non-empty byte stream yields at least one line. -/
theorem splitLinesB_ne_nil (b : Nat) (t : List Nat) : splitLinesB (b :: t) ≠ [] := by
  unfold splitLinesB
  split
  · simp
  · split <;> simp

/-- The byte lines of a stream concatenate back to the stream. -/
theorem splitLinesB_flatten : ∀ s : List Nat, (splitLinesB s).flatten = s := by
  intro s
  induction s with
  | nil => rfl
  | cons b t ih =>
    by_cases hb : b = 10
    · subst hb
      simpa [splitLinesB, List.flatten] using ih
    · cases h : splitLinesB t with
      | nil =>
        have ht : t = [] := by
          cases t with
          | nil => rfl
          | cons c u => exact absurd h (splitLinesB_ne_nil c u)
        subst ht
        simp [splitLinesB, hb]
      | cons l ls =>
        have hsp : splitLinesB (b :: t) = (b :: l) :: ls := by
          simp [splitLinesB, hb, h]
        rw [hsp]
        have hj := ih
        rw [h] at hj
        simp only [List.flatten] at hj ⊢
        simp [← hj]

/-- When the relay loop does not panic, the bytes it wrote are exactly the
concatenation of the processed lines. -/
theorem relayLines_written : ∀ L : List (List Nat),
    (relayLines L).panicked = false → (relayLines L).written = L.flatten := by
  intro L
  induction L with
  | nil => intro _; rfl
  | cons line rest ih =>
    intro h
    cases hd : utf8Decode line with
    | none => simp [relayLines, hd] at h
    | some cs =>
      have hp : (relayLines rest).panicked = false := by
        simpa [relayLines, hd] using h
      simp [relayLines, hd, List.flatten]
      exact ih hp

/-- Claim C4, amended: whenever the line-by-line relay loop completes without
panicking (in particular whenever every line of the captured diagnostic stream
is valid UTF-8), every byte the child wrote to the stream is written,
unmodified and in the original order, to the parent's real standard-error
stream. -/
theorem claim_C4_relay_preserves_stream (s : List Nat)
    (h : (relayScanB s).panicked = false) : (relayScanB s).written = s := by
  have hw := relayLines_written (splitLinesB s) (by simpa [relayScanB] using h)
  calc (relayScanB s).written = (splitLinesB s).flatten := hw
    _ = s := splitLinesB_flatten s

/-- Witness for `claim_C4_relay_preserves_stream` at the concrete stream
`"a\nb"`: the relay completes and writes back exactly the stream. -/
theorem claim_C4_relay_preserves_stream_witness :
    (relayScanB [97, 10, 98]).panicked = false ∧ (relayScanB [97, 10, 98]).written = [97, 10, 98] :=
  ⟨by decide, claim_C4_relay_preserves_stream [97, 10, 98] (by decide)⟩

/-- Claim C4, counterexample to the claim as stated: for the one-byte stream
`[0xC3]` (an incomplete UTF-8 sequence) the relay loop does not write the
stream's bytes to the parent's standard error - it panics before relaying
anything, so a byte is lost. -/
theorem claim_C4_counterexample :
    (relayScanB [195]).written ≠ [195] ∧ (relayScanB [195]).written = []
      ∧ (relayScanB [195]).panicked = true := by
  refine ⟨by decide, by decide, by decide⟩

/-- Claim C10: there is a captured diagnostic stream - the single byte `0xFF`,
a line that is not valid UTF-8 - on which the telemetry path's relay-and-scan
loop panics (the `.unwrap()` of `read_line`'s error), instead of relaying the
bytes or returning an error to the caller: with such a stream the whole
telemetry-path invocation ends in a panic, relays nothing, emits no event and
returns no error. -/
theorem claim_C10_relay_panics_on_invalid_utf8 :
    utf8Decode [255] = none
      ∧ (relayScanB [255]).panicked = true
      ∧ (relayScanB [255]).written = []
      ∧ ( telemetry_lean "lean" [] ⟨true, true, Except.ok (some 0), [255], true⟩ 0).outcome
          = Outcome.panicked
      ∧ ( telemetry_lean "lean" [] ⟨true, true, Except.ok (some 0), [255], true⟩ 0).events = [] := by
  refine ⟨by decide, by decide, by decide, by decide, by decide⟩

/-! ## Character-level facts about the pattern scan -/

/-- The pattern cannot match a window containing a newline: its five fixed
characters differ from `'\n'` and its four free characters exclude it. -/
theorem tokChk_none_of_newline : ∀ w : List Char, '\n' ∈ w → tokChk w = none := by
  intro w h
  unfold tokChk
  split
  · next c0 c1 c2 c3 c4 c5 c6 =>
    refine if_neg ?_
    rintro ⟨h0, h1, h6, h2, h3, h4, h5⟩
    simp only [List.mem_cons, List.not_mem_nil, or_false] at h
    rcases h with h | h | h | h | h | h | h
    · rw [h0] at h; exact absurd h (by decide)
    · rw [h1] at h; exact absurd h (by decide)
    · exact h2 h.symm
    · exact h3 h.symm
    · exact h4 h.symm
    · exact h5 h.symm
    · rw [h6] at h; exact absurd h (by decide)
  · rfl

/-- Truncating a text to its first line never changes whether (and how) the
pattern matches inside a fixed seven-character window: either the window is
unchanged, or it contains the newline and the pattern fails on both sides. -/
theorem tokChk_prefix_takeLine : ∀ (l p : List Char) (n : Nat),
    tokChk (p ++ (takeLine l).take n) = tokChk (p ++ l.take n) := by
  intro l
  induction l with
  | nil => intro p n; rfl
  | cons c t ih =>
    intro p n
    by_cases hc : c = '\n'
    · subst hc
      cases n with
      | zero => rfl
      | succ m =>
        have h1 : tokChk (p ++ ['\n'].take (m + 1)) = none := by
          apply tokChk_none_of_newline
          simp
        have h2 : tokChk (p ++ ('\n' :: t).take (m + 1)) = none := by
          apply tokChk_none_of_newline
          simp [List.take_succ_cons]
        rw [show takeLine ('\n' :: t) = ['\n'] from by simp [takeLine]]
        rw [h1, h2]
    · cases n with
      | zero => rfl
      | succ m =>
        rw [show takeLine (c :: t) = c :: takeLine t from by simp [takeLine, hc]]
        rw [List.take_succ_cons, List.take_succ_cons]
        have hx := ih (p ++ [c]) m
        simpa [List.append_assoc] using hx

/-- Restricting to the first line preserves a match at the start of a text. -/
theorem matchAt_cons_takeLine (c : Char) (t : List Char) :
    matchAt (c :: takeLine t) = matchAt (c :: t) := by
  have hx := tokChk_prefix_takeLine t [c] 6
  simpa [matchAt, List.take_succ_cons] using hx

/-- The pattern never matches at a newline. -/
theorem matchAt_newline_cons (t : List Char) : matchAt ('\n' :: t) = none := by
  apply tokChk_none_of_newline
  simp [matchAt, List.take_succ_cons]

/-- A text has no match anywhere exactly when its first line has none and the
rest of the text has none: the pattern cannot straddle a line boundary, since
its window would have to contain the terminating newline. -/
theorem firstMatch_line_split : ∀ s : List Char,
    firstMatch s = none ↔ (firstMatch (takeLine s) = none ∧ firstMatch (dropLine s) = none) := by
  intro s
  induction s with
  | nil => simp [takeLine, dropLine, firstMatch]
  | cons c t ih =>
    by_cases hc : c = '\n'
    · subst hc
      have h1 : firstMatch ('\n' :: t) = firstMatch t := by
        simp [firstMatch, matchAt_newline_cons]
      have h2 : firstMatch ['\n'] = none := by decide
      simp [takeLine, dropLine, h1, h2]
    · have ht : takeLine (c :: t) = c :: takeLine t := by simp [takeLine, hc]
      have hd : dropLine (c :: t) = dropLine t := by simp [dropLine, hc]
      rw [ht, hd]
      cases hma : matchAt (c :: t) with
      | some m =>
        have hma2 : matchAt (c :: takeLine t) = some m := by
          rw [matchAt_cons_takeLine, hma]
        simp [firstMatch, hma, hma2]
      | none =>
        have hma2 : matchAt (c :: takeLine t) = none := by
          rw [matchAt_cons_takeLine, hma]
        simp only [firstMatch, hma, hma2]
        exact ih

/-- Splitting a non-empty text yields at least one line. -/
theorem splitLines_ne_nil (c : Char) (t : List Char) : splitLines (c :: t) ≠ [] := by
  unfold splitLines
  split
  · simp
  · split <;> simp

/-- The lines of a non-empty text are its first line followed by the lines of
the rest. -/
theorem splitLines_eq_takeDrop : ∀ s : List Char, s ≠ [] →
    splitLines s = takeLine s :: splitLines (dropLine s) := by
  intro s
  induction s with
  | nil => intro h; exact absurd rfl h
  | cons c t ih =>
    intro _
    by_cases hc : c = '\n'
    · subst hc
      simp [splitLines, takeLine, dropLine]
    · cases t with
      | nil => simp [splitLines, takeLine, dropLine, hc]
      | cons d u =>
        have ih2 := ih (by simp)
        rw [show takeLine (c :: d :: u) = c :: takeLine (d :: u) from by simp [takeLine, hc]]
        rw [show dropLine (c :: d :: u) = dropLine (d :: u) from by simp [dropLine, hc]]
        rw [show splitLines (c :: d :: u)
              = (match splitLines (d :: u) with
                 | [] => [[c]]
                 | l :: ls => (c :: l) :: ls) from by simp [splitLines, hc]]
        rw [ih2]

/-- Dropping the first line never lengthens a text. -/
theorem dropLine_length_le : ∀ s : List Char, (dropLine s).length ≤ s.length := by
  intro s
  induction s with
  | nil => simp [dropLine]
  | cons c t ih =>
    by_cases hc : c = '\n' <;> simp [dropLine, hc]
    · exact Nat.le_succ_of_le ih

/-- Dropping the first line of a non-empty text shortens it. -/
theorem dropLine_length_lt (c : Char) (t : List Char) :
    (dropLine (c :: t)).length < (c :: t).length := by
  by_cases hc : c = '\n' <;> simp [dropLine, hc]
  exact Nat.lt_succ_of_le (dropLine_length_le t)

/-- The per-line accumulator is empty exactly when the pattern matches nowhere
in the whole text. -/
theorem scanErrors_eq_nil_iff (s : List Char) : scanErrors s = [] ↔ firstMatch s = none := by
  suffices H : ∀ n : Nat, ∀ s : List Char, s.length ≤ n →
      (scanErrors s = [] ↔ firstMatch s = none) from H s.length s le_rfl
  intro n
  induction n with
  | zero =>
    intro s hs
    have hnil : s = [] := List.eq_nil_of_length_eq_zero (Nat.le_zero.mp hs)
    subst hnil
    simp [scanErrors, splitLines, firstMatch]
  | succ m ih =>
    intro s hs
    cases s with
    | nil => simp [scanErrors, splitLines, firstMatch]
    | cons c t =>
      have hlen : (dropLine (c :: t)).length ≤ m := by
        have hlt := dropLine_length_lt c t
        simp only [List.length_cons] at hlt hs
        omega
      have ihd := ih (dropLine (c :: t)) hlen
      rw [scanErrors, splitLines_eq_takeDrop (c :: t) (by simp),
          firstMatch_line_split (c :: t)]
      cases hf : firstMatch (takeLine (c :: t)) with
      | some m2 => simp [List.filterMap_cons, hf]
      | none =>
        simp only [List.filterMap_cons, hf]
        simpa [scanErrors] using ihd

/-- With enough fuel, the head of the anywhere-scan is the leftmost match. -/
theorem allTokAux_head : ∀ (fuel : Nat) (l : List Char), l.length ≤ fuel →
    (allTokAux fuel l).head? = firstMatch l := by
  intro fuel
  induction fuel with
  | zero =>
    intro l hl
    have hnil : l = [] := List.eq_nil_of_length_eq_zero (Nat.le_zero.mp hl)
    subst hnil
    rfl
  | succ m ih =>
    intro l hl
    cases l with
    | nil => rfl
    | cons c t =>
      cases hm : matchAt (c :: t) with
      | some tok => simp [allTokAux, firstMatch, hm]
      | none =>
        have hlen : t.length ≤ m := by
          simp only [List.length_cons] at hl
          omega
        simp only [allTokAux, firstMatch, hm]
        exact ih t hlen

/-- The head of the list of all tokens of a text is its leftmost match. -/
theorem allErrorTokens_head (l : List Char) : (allErrorTokens l).head? = firstMatch l :=
  allTokAux_head l.length l le_rfl

/-- A text contains no token at all exactly when it has no leftmost match. -/
theorem allErrorTokens_eq_nil_iff (s : List Char) :
    allErrorTokens s = [] ↔ firstMatch s = none := by
  rw [← allErrorTokens_head s, List.head?_eq_none_iff]

/-! ## Claims about the error-code extraction and the telemetry event -/

/-- Claim C2, counterexample to the claim as stated: in the one-line stream
`[E1111][E2222]` both bracketed tokens occur, but the accumulator holds only
the first one - `Regex::captures` yields a single (leftmost) match per line,
so the second token on the same line is dropped. -/
theorem claim_C2_counterexample :
    scanErrors ['[', 'E', '1', '1', '1', '1', ']', '[', 'E', '2', '2', '2', '2', ']']
        ≠ allErrorTokens ['[', 'E', '1', '1', '1', '1', ']', '[', 'E', '2', '2', '2', '2', ']']
      ∧ scanErrors ['[', 'E', '1', '1', '1', '1', ']', '[', 'E', '2', '2', '2', '2', ']']
        = [['E', '1', '1', '1', '1']]
      ∧ allErrorTokens ['[', 'E', '1', '1', '1', '1', ']', '[', 'E', '2', '2', '2', '2', ']']
        = [['E', '1', '1', '1', '1'], ['E', '2', '2', '2', '2']] := by
  refine ⟨by decide, by decide, by decide⟩

/-- Claim C2, amended: for every captured diagnostic stream, the accumulated
error-code sequence equals, line by line in encounter order, the first of the
bracketed 5-character E-prefixed tokens occurring in that line (if any);
second and later tokens on the same line contribute nothing, and tokens of the
wrong shape contribute nothing. -/
theorem claim_C2_first_token_per_line : ∀ s : List Char,
    scanErrors s = (splitLines s).filterMap (fun l => (allErrorTokens l).head?) := by
  intro s
  have hf : (fun l : List Char => (allErrorTokens l).head?) = firstMatch :=
    funext allErrorTokens_head
  rw [scanErrors, hf]

/-- Claim C6: for the telemetry event built after a completed run, the `errors`
field is `None` precisely when no error-code pattern matches anywhere in the
captured diagnostic stream; otherwise it is `Some` of a non-empty list; and an
empty stream yields `errors: None` while the duration and exit-code fields are
still recorded. -/
theorem claim_C6_errors_invariant (ms : Nat) (code : Int) (cs : List Char) :
    ((mkLeanRun ms code (scanErrors cs)).errors = none ↔ allErrorTokens cs = [])
      ∧ (∀ l, (mkLeanRun ms code (scanErrors cs)).errors = some l → l ≠ [])
      ∧ (mkLeanRun ms code (scanErrors [])).errors = none
      ∧ (mkLeanRun ms code (scanErrors [])).duration_ms = ms
      ∧ (mkLeanRun ms code (scanErrors [])).exit_code = code := by
  refine ⟨?_, ?_, ?_, rfl, rfl⟩
  · rw [allErrorTokens_eq_nil_iff, ← scanErrors_eq_nil_iff]
    by_cases hsc : scanErrors cs = [] <;> simp [mkLeanRun, hsc]
  · intro l hl
    by_cases hsc : scanErrors cs = []
    · simp [mkLeanRun, hsc] at hl
    · simp [mkLeanRun, hsc] at hl
      rw [← hl]
      exact hsc
  · rfl

/-- Witness for `claim_C6_errors_invariant`: a stream with no token yields
`errors: None`. -/
theorem claim_C6_errors_invariant_witness : (mkLeanRun 3 0 (scanErrors ['x'])).errors = none :=
  (claim_C6_errors_invariant 3 0 ['x']).1.mpr (by decide)

/-! ## Claims about the executors and the dispatcher -/

/-- Appending the two color arguments changes the argument list. -/
theorem append_color_ne (args : List (List Char)) : args ++ [colorFlag, alwaysFlag] ≠ args := by
  intro h
  have hlen := congrArg List.length h
  simp only [List.length_append, List.length_cons, List.length_nil] at hlen
  omega

/-- The argument list handed to the child is the caller's list, with the two
color arguments appended exactly under the condition of source lines 55-58,
independently of everything that happens after the spawn. -/
theorem telemetry_childArgs (arg0 : String) (args : List (List Char)) (env : TelemetryEnv)
    (ms : Nat) :
    ( telemetry_lean arg0 args env ms).childArgs
      = if env.isatty && !(args.any (fun e => colorFlag.isPrefixOf e))
        then args ++ [colorFlag, alwaysFlag] else args := by
  rcases env with ⟨i, sp, w, st, lg⟩
  cases sp
  · rfl
  · cases w with
    | error r0 => rfl
    | ok sc =>
      unfold telemetry_lean
      dsimp only
      cases hp : (relayScanB st).panicked <;> simp [hp]

/-- Claim C7: on the telemetry path the two color-forcing arguments are
appended if and only if the terminal probe reported an interactive terminal
and no caller-supplied argument begins with `--color`; with an explicit color
argument present, or a non-interactive terminal, the argument list is passed
through unchanged. -/
theorem claim_C7_color_injection (arg0 : String) (args : List (List Char)) (env : TelemetryEnv)
    (ms : Nat) :
    (( telemetry_lean arg0 args env ms).childArgs = args ++ [colorFlag, alwaysFlag]
        ↔ (env.isatty = true ∧ args.any (fun e => colorFlag.isPrefixOf e) = false))
      ∧ (args.any (fun e => colorFlag.isPrefixOf e) = true
          → ( telemetry_lean arg0 args env ms).childArgs = args)
      ∧ (env.isatty = false → ( telemetry_lean arg0 args env ms).childArgs = args) := by
  have hne := append_color_ne args
  have hca := telemetry_childArgs arg0 args env ms
  cases hi : env.isatty <;> cases ha : args.any (fun e => colorFlag.isPrefixOf e) <;>
    rw [hi, ha] at hca <;> simp at hca <;> simp [hca, hne, Ne.symm hne]

/-- Witness for `claim_C7_color_injection`: an interactive terminal and no
color argument make the executor append the two color arguments. -/
theorem claim_C7_color_injection_witness :
    ( telemetry_lean "lean" [['f', 'o', 'o']] ⟨true, true, Except.ok (some 0), [], true⟩ 0).childArgs
      = [['f', 'o', 'o'], colorFlag, alwaysFlag] :=
  (claim_C7_color_injection "lean" [['f', 'o', 'o']] ⟨true, true, Except.ok (some 0), [], true⟩ 0).1.mpr
    ⟨rfl, by decide⟩

/-- Claim C3, amended: on the telemetry path, if the child was spawned but
could not be waited on, a telemetry event with `errors: None` (and exit code
taken from the raw OS error code, defaulting to 1) is still emitted, and the
error is returned to the caller as a running-command error naming the
executable; the parent is not terminated directly.  (If the spawn itself
fails, the `unwrap` of source line 70 panics instead - see the
counterexample.) -/
theorem claim_C3_wait_failure (arg0 : String) (args : List (List Char)) (env : TelemetryEnv)
    (ms : Nat) (rawOs : Option Int) (hs : env.spawnOk = true)
    (hw : env.wait = Except.error rawOs) :
    ( telemetry_lean arg0 args env ms).events
        = [{ duration_ms := ms, exit_code := rawOs.getD 1, errors := none }]
      ∧ ( telemetry_lean arg0 args env ms).outcome = Outcome.errRunningCommand arg0
      ∧ ∀ c : Int, ( telemetry_lean arg0 args env ms).outcome ≠ Outcome.exited c := by
  simp [telemetry_lean, hs, hw]

/-- Claim C3, counterexample to the claim as stated: when the spawn itself
fails, the telemetry path panics on the `unwrap` of source line 70 - no
telemetry event is emitted and no wrapped error is returned to the caller. -/
theorem claim_C3_counterexample :
    ( telemetry_lean "lean" [] ⟨true, false, Except.ok (some 0), [], true⟩ 7).events = []
      ∧ ( telemetry_lean "lean" [] ⟨true, false, Except.ok (some 0), [], true⟩ 7).outcome
          = Outcome.panicked := by
  refine ⟨by decide, by decide⟩

/-- Witness for `claim_C3_wait_failure` at a concrete wait failure with raw OS
error code 3. -/
theorem claim_C3_wait_failure_witness :
    ( telemetry_lean "lean" [] ⟨true, true, Except.error (some 3), [], true⟩ 7).events
      = [{ duration_ms := 7, exit_code := 3, errors := none }] :=
  (claim_C3_wait_failure "lean" [] ⟨true, true, Except.error (some 3), [], true⟩ 7 (some 3)
    rfl rfl).1

/-- Claim C5: when the child ran to completion (and the relay loop completed),
a failing telemetry log-store append changes neither the exit code nor the
emitted event, never makes the invocation report failure, and is reported
through the notification sink as a cleanup warning. -/
theorem claim_C5_log_append_isolated (arg0 : String) (args : List (List Char))
    (env : TelemetryEnv) (ms : Nat) (code : Option Int) (hs : env.spawnOk = true)
    (hw : env.wait = Except.ok code) (hr : (relayScanB env.stream).panicked = false) :
    ( telemetry_lean arg0 args { env with logOk := false } ms).outcome
        = Outcome.exited (code.getD 1)
      ∧ ( telemetry_lean arg0 args { env with logOk := false } ms).outcome
          = ( telemetry_lean arg0 args { env with logOk := true } ms).outcome
      ∧ ( telemetry_lean arg0 args { env with logOk := false } ms).events
          = ( telemetry_lean arg0 args { env with logOk := true } ms).events
      ∧ ( telemetry_lean arg0 args { env with logOk := false } ms).notifications
          = [Notification.telemetryCleanupError]
      ∧ ∀ name : String,
          ( telemetry_lean arg0 args { env with logOk := false } ms).outcome
            ≠ Outcome.errRunningCommand name := by
  simp [telemetry_lean, hs, hw, hr]

/-- Witness for `claim_C5_log_append_isolated`: with a failing append the
parent still exits with the child's exit code 2. -/
theorem claim_C5_log_append_isolated_witness :
    ( telemetry_lean "lean" [] ⟨true, true, Except.ok (some 2), [97, 10], false⟩ 1).outcome
      = Outcome.exited 2 :=
  (claim_C5_log_append_isolated "lean" [] ⟨true, true, Except.ok (some 2), [97, 10], true⟩ 1
    (some 2) rfl rfl (by decide)).1

/-- Claim C1, amended: whenever the child terminated normally, the process's
final exit code equals the child's exit code - on the telemetry path provided
the diagnostic relay loop completes without panicking, on the unix direct path
when the in-place replacement succeeded, and on the windows direct path when
the spawned child's code is available.  (If the relay loop panics, the parent
panics instead of exiting with the child's code - see the counterexample.) -/
theorem claim_C1_exit_code (platform : Platform) (arg0 : String) (args : List (List Char))
    (cfg : Cfg) (tEnv : TelemetryEnv) (dEnv : DirectEnv) (ms : Nat) (c : Int) :
    ((arg0 = "lean" ∨ arg0 = "lean.exe") → cfg.telemetry_enabled = Except.ok true →
        tEnv.spawnOk = true → tEnv.wait = Except.ok (some c) →
        (relayScanB tEnv.stream).panicked = false →
        (run_command_for_dir platform arg0 args cfg tEnv dEnv ms).exec.outcome
          = Outcome.exited c)
      ∧ (cfg.telemetry_enabled = Except.ok false → platform = Platform.unix →
          dEnv.execErr = none → dEnv.childExit = some c →
          (run_command_for_dir platform arg0 args cfg tEnv dEnv ms).exec.outcome
            = Outcome.exited c)
      ∧ (cfg.telemetry_enabled = Except.ok false → platform = Platform.windows →
          dEnv.winStatus = Except.ok (some c) →
          (run_command_for_dir platform arg0 args cfg tEnv dEnv ms).exec.outcome
            = Outcome.exited c) := by
  refine ⟨?_, ?_, ?_⟩
  · intro hname hen hs hw hr
    simp [run_command_for_dir, hname, hen, telemetry_lean, hs, hw, hr]
  · intro hen hp hex hchild
    subst hp
    by_cases hname : arg0 = "lean" ∨ arg0 = "lean.exe" <;>
      simp [run_command_for_dir, hname, hen, exec_command_for_dir_without_telemetry, hex, hchild]
  · intro hen hp hwin
    subst hp
    by_cases hname : arg0 = "lean" ∨ arg0 = "lean.exe" <;>
      simp [run_command_for_dir, hname, hen, exec_command_for_dir_without_telemetry, hwin]

/-- Claim C1, counterexample to the claim as stated: on the telemetry path with
a child that terminated normally with exit code 0 but wrote the invalid UTF-8
byte `0xFF` to its diagnostic stream, the parent panics instead of exiting
with the child's exit code. -/
theorem claim_C1_counterexample :
    (run_command_for_dir Platform.unix "lean" [] ⟨Except.ok true⟩
        ⟨true, true, Except.ok (some 0), [255], true⟩ ⟨none, none, Except.ok none⟩ 0).exec.outcome
        = Outcome.panicked
      ∧ (run_command_for_dir Platform.unix "lean" [] ⟨Except.ok true⟩
          ⟨true, true, Except.ok (some 0), [255], true⟩ ⟨none, none, Except.ok none⟩ 0).exec.outcome
          ≠ Outcome.exited 0 := by
  refine ⟨by decide, by decide⟩

/-- Witness for `claim_C1_exit_code`: on the telemetry path a child exiting
with code 7 makes the parent exit with code 7. -/
theorem claim_C1_exit_code_witness :
    (run_command_for_dir Platform.unix "lean" [] ⟨Except.ok true⟩
        ⟨true, true, Except.ok (some 7), [], true⟩ ⟨none, some 7, Except.ok (some 7)⟩ 3).exec.outcome
      = Outcome.exited 7 :=
  (claim_C1_exit_code Platform.unix "lean" [] ⟨Except.ok true⟩
    ⟨true, true, Except.ok (some 7), [], true⟩ ⟨none, some 7, Except.ok (some 7)⟩ 3 7).1
    (Or.inl rfl) rfl rfl rfl (by decide)

/-- Claim C8: the dispatcher selects the telemetry path exactly when the
executable name is `lean` or `lean.exe` and the enablement query answers
`true`; a failing query (with a matching name) is propagated without
attempting either path; otherwise the direct path runs. -/
theorem claim_C8_dispatch (platform : Platform) (arg0 : String) (args : List (List Char))
    (cfg : Cfg) (tEnv : TelemetryEnv) (dEnv : DirectEnv) (ms : Nat) :
    ((run_command_for_dir platform arg0 args cfg tEnv dEnv ms).pathTaken
        = PathTaken.telemetryPath
        ↔ ((arg0 = "lean" ∨ arg0 = "lean.exe") ∧ cfg.telemetry_enabled = Except.ok true))
      ∧ ((arg0 = "lean" ∨ arg0 = "lean.exe") → cfg.telemetry_enabled = Except.error () →
          (run_command_for_dir platform arg0 args cfg tEnv dEnv ms).pathTaken = PathTaken.noPath
            ∧ (run_command_for_dir platform arg0 args cfg tEnv dEnv ms).exec.outcome
                = Outcome.errCfg)
      ∧ (¬(arg0 = "lean" ∨ arg0 = "lean.exe") →
          (run_command_for_dir platform arg0 args cfg tEnv dEnv ms).pathTaken
            = PathTaken.directPath)
      ∧ (cfg.telemetry_enabled = Except.ok false →
          (run_command_for_dir platform arg0 args cfg tEnv dEnv ms).pathTaken
            = PathTaken.directPath) := by
  refine ⟨?_, ?_, ?_, ?_⟩
  · constructor
    · intro h
      by_cases hname : arg0 = "lean" ∨ arg0 = "lean.exe"
      · rcases hte : cfg.telemetry_enabled with e | b
        · simp [run_command_for_dir, hname, hte] at h
        · cases b
          · simp [run_command_for_dir, hname, hte] at h
          · exact ⟨hname, rfl⟩
      · simp [run_command_for_dir, hname] at h
    · rintro ⟨hname, hte⟩
      simp [run_command_for_dir, hname, hte]
  · intro hname hte
    simp [run_command_for_dir, hname, hte]
  · intro hname
    simp [run_command_for_dir, hname]
  · intro hte
    by_cases hname : arg0 = "lean" ∨ arg0 = "lean.exe" <;>
      simp [run_command_for_dir, hname, hte]

/-- Witness for `claim_C8_dispatch`: name `lean` with telemetry enabled takes
the telemetry path. -/
theorem claim_C8_dispatch_witness :
    (run_command_for_dir Platform.unix "lean" [] ⟨Except.ok true⟩
        ⟨true, true, Except.ok (some 0), [], true⟩ ⟨none, none, Except.ok none⟩ 0).pathTaken
      = PathTaken.telemetryPath :=
  (claim_C8_dispatch Platform.unix "lean" [] ⟨Except.ok true⟩
    ⟨true, true, Except.ok (some 0), [], true⟩ ⟨none, none, Except.ok none⟩ 0).1.mpr
    ⟨Or.inl rfl, rfl⟩

/-- Claim C9: the terminal probe is total - for every raw result of the native
query it returns a Boolean, a zero (failed or negative) query result is
reported as "not a terminal", and it reports a terminal exactly on a non-zero
result; on both platform variants. -/
theorem claim_C9_probe_total (r : Int) :
    (stderr_isatty_unix r = true ∨ stderr_isatty_unix r = false)
      ∧ (r = 0 → stderr_isatty_unix r = false)
      ∧ (stderr_isatty_unix r = true ↔ r ≠ 0)
      ∧ (r = 0 → stderr_isatty_windows r = false)
      ∧ (stderr_isatty_windows r = true ↔ r ≠ 0) := by
  refine ⟨Bool.eq_false_or_eq_true _, ?_, ?_, ?_, ?_⟩
  · intro h; subst h; decide
  · simp [stderr_isatty_unix, bne_iff_ne]
  · intro h; subst h; decide
  · simp [stderr_isatty_windows, bne_iff_ne]

/-- Witness for `claim_C9_probe_total`: a zero query result is reported as not
a terminal. -/
theorem claim_C9_probe_total_witness : stderr_isatty_unix 0 = false :=
  (claim_C9_probe_total 0).2.1 rfl
